import Mathlib

/-!
Verification of the boot-image decoder `parse_bootimg_for_mkvendor` from
`mkvendor.py`.  The Python file object is modelled as a byte stream with an
explicit read position and an open/closed flag; bytes are natural numbers.
`read`, `seek` and `close` are modelled exactly: a short read at end-of-stream
returns the available bytes without error, relative seeks to a negative
position fail, and the zero-page probe loop of the decoder is given an
explicit fuel parameter (returning `none` when the fuel runs out, so that
non-termination of the loop is expressible as `none` for every fuel).
-/

namespace Mkvendor

set_option maxRecDepth 100000

/-- A seekable readable byte source (model of the Python file object). -/
structure BStream where
  data : List Nat
  pos : Nat
  closed : Bool
deriving Repr, DecidableEq

/-- Model of `f.read(n)`: returns up to `n` bytes from the current position and
advances the position by the number of bytes actually returned. -/
def bread (n : Nat) (s : BStream) : List Nat × BStream :=
  let bytes := (s.data.drop s.pos).take n
  (bytes, { s with pos := s.pos + bytes.length })

/-- Model of `f.read()`: returns all bytes from the current position to end-of-stream. -/
def breadAll (s : BStream) : List Nat × BStream :=
  let bytes := s.data.drop s.pos
  (bytes, { s with pos := s.pos + bytes.length })

/-- Model of `f.seek(0)`. -/
def bseek0 (s : BStream) : BStream := { s with pos := 0 }

/-- Model of `f.seek(delta, 1)`: relative seek; fails when the target position is
negative (Python raises), succeeds even beyond end-of-stream. -/
def bseekRel (delta : Int) (s : BStream) : Option BStream :=
  if (s.pos : Int) + delta < 0 then none
  else some { s with pos := ((s.pos : Int) + delta).toNat }

/-- Model of `f.close()`. -/
def bclose (s : BStream) : BStream := { s with closed := true }

/-- Little-endian u32 from (the first four of) a list of bytes, as decoded by
`struct.unpack('<I', ...)`. -/
def u32le (bs : List Nat) : Nat :=
  match bs with
  | b0 :: b1 :: b2 :: b3 :: _ => b0 + 256 * b1 + 65536 * b2 + 16777216 * b3
  | _ => 0

/-- The u32 field of a 608-byte header block at byte offset `off`. -/
def field32 (bs : List Nat) (off : Nat) : Nat := u32le ((bs.drop off).take 4)

/-- The unpacked 608-byte boot-image header,
`struct.unpack('<8s10I16s512s32s', ...)`. -/
structure BootHeader where
  magic : List Nat
  kernel_size : Nat
  kernel_addr : Nat
  ramdisk_size : Nat
  ramdisk_addr : Nat
  second_size : Nat
  second_addr : Nat
  tags_addr : Nat
  page_size : Nat
  dt_size : Nat
  os_version : Nat
  name : List Nat
  cmdline : List Nat
  id4x8 : List Nat
deriving Repr, DecidableEq

/-- Field layout of `'<8s10I16s512s32s'` over a 608-byte block. -/
def unpackBootHeader (bs : List Nat) : BootHeader :=
  { magic := bs.take 8
    kernel_size := field32 bs 8
    kernel_addr := field32 bs 12
    ramdisk_size := field32 bs 16
    ramdisk_addr := field32 bs 20
    second_size := field32 bs 24
    second_addr := field32 bs 28
    tags_addr := field32 bs 32
    page_size := field32 bs 36
    dt_size := field32 bs 40
    os_version := field32 bs 44
    name := (bs.drop 48).take 16
    cmdline := (bs.drop 64).take 512
    id4x8 := (bs.drop 576).take 32 }

/-- Decode failures: the magic assertion, the `struct.error` raised when the
stream holds fewer than 608 header bytes, and a seek to a negative position. -/
inductive FormatError where
  | badMagic
  | truncatedHeader
  | seekError
deriving Repr, DecidableEq

/-- A value of the heterogeneous metadata dict: an integer or a
(Latin-1 decoded) string, kept as its list of one-byte code points. -/
inductive MetaVal where
  | num (n : Nat)
  | str (s : List Nat)
deriving Repr, DecidableEq

/-- The result object assembled by the decoder. -/
structure ParseResult where
  metadata : List (String × MetaVal)
  kernel : List Nat
  ramdisk : List Nat
  second : List Nat
  dtimg : List Nat
  kerneldt : List Nat
  unknown : List Nat
  image_format : List (String × String)
deriving Repr, DecidableEq

/-- The bytes of `'ANDROID!'` in Latin-1. -/
def androidMagic : List Nat := [65, 78, 68, 82, 79, 73, 68, 33]

/-- Python `str.strip('\x00')`: removes NUL code points from both ends. -/
def stripNul (s : List Nat) : List Nat :=
  ((s.dropWhile (fun b => b = 0)).reverse.dropWhile (fun b => b = 0)).reverse

/-- The gzip magic, `struct.pack('3B', 0x1f, 0x8b, 0x08)`. -/
def gzipMagic : List Nat := [0x1f, 0x8b, 0x08]

/-- The sniffer `gzname = lambda x: x == struct.pack('3B', 0x1f, 0x8b, 0x08) and '.gz' or ''`. -/
def gzname (x : List Nat) : String := if x = gzipMagic then ".gz" else ""

/-- The device-tree-blob magic, `struct.pack('>I', 0xd00dfeed)`. -/
def dtbMagic : List Nat := [0xd0, 0x0d, 0xfe, 0xed]

/-- Helper for `bytes.find`: first index `≥ i` (counting from the original
start) at which `needle` occurs in the remaining haystack. -/
def findSubFrom (needle : List Nat) : List Nat → Nat → Option Nat
  | [], i => if List.isPrefixOf needle [] then some i else none
  | b :: rest, i =>
    if List.isPrefixOf needle (b :: rest) then some i
    else findSubFrom needle rest (i + 1)

/-- Model of `hay.find(needle)`, with `none` for Python's `-1`. -/
def findSub (hay needle : List Nat) : Option Nat := findSubFrom needle hay 0

/-- Python's `&` on unbounded integers: bitwise and of the infinite
two's-complement bit sequences.  Written with the kernel-computable `Nat`
operations (`a ^^^ (a &&& b)` is the set difference of the bit sets of `a`
and `b`); `pyAnd_eq_land` below checks it against Mathlib's `Int.land`. -/
def pyAnd : Int → Int → Int
  | .ofNat a, .ofNat b => .ofNat (a &&& b)
  | .ofNat a, .negSucc b => .ofNat (a ^^^ (a &&& b))
  | .negSucc a, .ofNat b => .ofNat (b ^^^ (b &&& a))
  | .negSucc a, .negSucc b => .negSucc (a ||| b)

/-- The padding function `padding = lambda x: (~x + 1) & (size - 1)` over
Python's unbounded two's-complement integers. -/
def pyPadding (size : Nat) (x : Nat) : Int :=
  pyAnd (~~~(x : Int) + 1) ((size : Int) - 1)

/-- The metadata dict in its literal insertion order. -/
def mkMetadata (hdr : BootHeader) (size : Nat) : List (String × MetaVal) :=
  [("kernel_addr", .num hdr.kernel_addr),
   ("ramdisk_addr", .num hdr.ramdisk_addr),
   ("second_addr", .num hdr.second_addr),
   ("tags_addr", .num hdr.tags_addr),
   ("page_size", .num hdr.page_size),
   ("name", .str (stripNul hdr.name)),
   ("cmdline", .str (stripNul hdr.cmdline)),
   ("padding_size", .num size),
   ("os_version", .num hdr.os_version)]

/-- The `result` namespace right after the metadata assignment: every section
buffer still holds its initial `b""` and `image_format` is the empty dict. -/
def initResult (hdr : BootHeader) (size : Nat) : ParseResult :=
  { metadata := mkMetadata hdr size
    kernel := []
    ramdisk := []
    second := []
    dtimg := []
    kerneldt := []
    unknown := []
    image_format := [] }

/-- Lines 60-75 of the source: `seek(0)`, read and unpack the 608-byte
header, `seek(page_size - 608, 1)`, then the `'ANDROID!'` assertion
(the seek happens before the assertion, as in the source). -/
def headerStage (bootimg : BStream) : Except FormatError (BootHeader × BStream) :=
  let s := bseek0 bootimg
  let rd := bread 608 s
  if rd.1.length = 608 then
    let hdr := unpackBootHeader rd.1
    match bseekRel ((hdr.page_size : Int) - 608) rd.2 with
    | none => .error .seekError
    | some s2 =>
      if hdr.magic = androidMagic then .ok (hdr, s2)
      else .error .badMagic
  else .error .truncatedHeader

/-- Lines 98-103: read one page at a time while it is all zero bytes; at the
first non-all-zero page, seek back one page and take `size = tell()`.
`none` means the given fuel was exhausted before the loop ended. -/
def probeLoop (page_size : Nat) : Nat → BStream → Option (Except FormatError (BStream × Nat))
  | 0, _ => none
  | fuel + 1, s =>
    let rd := bread page_size s
    if rd.1 = List.replicate page_size 0 then probeLoop page_size fuel rd.2
    else
      match bseekRel (-(page_size : Int)) rd.2 with
      | none => some (.error .seekError)
      | some s2 => some (.ok (s2, s2.pos))

/-- Lines 127-133: split the kernel buffer at the first occurrence of the
device-tree magic when that occurrence is at a positive offset. -/
def kernelSplit (kernel : List Nat) : List Nat × List Nat :=
  match findSub kernel dtbMagic with
  | some pos => if 0 < pos then (kernel.take pos, kernel.drop pos) else (kernel, [])
  | none => (kernel, [])

/-- Lines 126-135: read the kernel section, split off an embedded device
tree, sniff gzip, skip the padding. -/
def kernelStep (hdr : BootHeader) (size : Nat) (r : ParseResult) (s : BStream) :
    Except FormatError (ParseResult × BStream) :=
  let rd := bread hdr.kernel_size s
  let r1 := { r with
    kernel := (kernelSplit rd.1).1
    kerneldt := (kernelSplit rd.1).2
    image_format := r.image_format ++ [("kernel", gzname (rd.1.take 3))] }
  match bseekRel (pyPadding size hdr.kernel_size) rd.2 with
  | none => .error .seekError
  | some s2 => .ok (r1, s2)

/-- Lines 138-141: read the ramdisk verbatim, sniff gzip, skip the padding. -/
def ramdiskStep (hdr : BootHeader) (size : Nat) (r : ParseResult) (s : BStream) :
    Except FormatError (ParseResult × BStream) :=
  let rd := bread hdr.ramdisk_size s
  let r1 := { r with
    ramdisk := rd.1
    image_format := r.image_format ++ [("ramdisk", gzname (rd.1.take 3))] }
  match bseekRel (pyPadding size hdr.ramdisk_size) rd.2 with
  | none => .error .seekError
  | some s2 => .ok (r1, s2)

/-- Lines 144-148: the optional second-stage loader; nothing at all happens
when `second_size` is falsy. -/
def secondStep (hdr : BootHeader) (size : Nat) (r : ParseResult) (s : BStream) :
    Except FormatError (ParseResult × BStream) :=
  if hdr.second_size ≠ 0 then
    let rd := bread hdr.second_size s
    let r1 := { r with
      second := rd.1
      image_format := r.image_format ++ [("second", gzname (rd.1.take 3))] }
    match bseekRel (pyPadding size hdr.second_size) rd.2 with
    | none => .error .seekError
    | some s2 => .ok (r1, s2)
  else .ok (r, s)

/-- Lines 151-154: the optional device-tree section (no gzip sniff). -/
def dtStep (hdr : BootHeader) (size : Nat) (r : ParseResult) (s : BStream) :
    Except FormatError (ParseResult × BStream) :=
  if hdr.dt_size ≠ 0 then
    let rd := bread hdr.dt_size s
    let r1 := { r with dtimg := rd.1 }
    match bseekRel (pyPadding size hdr.dt_size) rd.2 with
    | none => .error .seekError
    | some s2 => .ok (r1, s2)
  else .ok (r, s)

/-- Lines 157-161: read the trailing bytes, store them when non-empty, close
the stream. -/
def unknownStep (r : ParseResult) (s : BStream) : ParseResult × BStream :=
  let rd := breadAll s
  let r1 := if rd.1 ≠ [] then { r with unknown := rd.1 } else r
  (r1, bclose rd.2)

/-- Lines 110-161: everything after the padding probe. -/
def sectionsStage (hdr : BootHeader) (size : Nat) (s : BStream) :
    Except FormatError (ParseResult × BStream) :=
  match kernelStep hdr size (initResult hdr size) s with
  | .error e => .error e
  | .ok (r1, s1) =>
    match ramdiskStep hdr size r1 s1 with
    | .error e => .error e
    | .ok (r2, s2) =>
      match secondStep hdr size r2 s2 with
      | .error e => .error e
      | .ok (r3, s3) =>
        match dtStep hdr size r3 s3 with
        | .error e => .error e
        | .ok (r4, s4) => .ok (unknownStep r4 s4)

/-- The whole decoder.  `none` means the probe loop did not finish within
`fuel` iterations; `some (.error e)` models a raised exception;
`some (.ok (r, s))` is a normal return together with the final stream state. -/
def parse_bootimg_for_mkvendor (fuel : Nat) (bootimg : BStream) :
    Option (Except FormatError (ParseResult × BStream)) :=
  match headerStage bootimg with
  | .error e => some (.error e)
  | .ok (hdr, s) =>
    match probeLoop hdr.page_size fuel s with
    | none => none
    | some (.error e) => some (.error e)
    | some (.ok (s2, size)) => some (sectionsStage hdr size s2)

/-- A freshly opened stream over the given contents. -/
def mkStream (data : List Nat) : BStream := ⟨data, 0, false⟩

/-- The four little-endian bytes of a u32 value. -/
def u32bytes (n : Nat) : List Nat :=
  [n % 256, n / 256 % 256, n / 65536 % 256, n / 16777216 % 256]

/-- A 608-byte header block with the given field values
(`name`, `cmdline`, `id` all zero). -/
def mkHeaderBytes (magic : List Nat)
    (kernel_size kernel_addr ramdisk_size ramdisk_addr : Nat)
    (second_size second_addr tags_addr page_size dt_size os_version : Nat) :
    List Nat :=
  magic ++ u32bytes kernel_size ++ u32bytes kernel_addr ++
    u32bytes ramdisk_size ++ u32bytes ramdisk_addr ++
    u32bytes second_size ++ u32bytes second_addr ++
    u32bytes tags_addr ++ u32bytes page_size ++
    u32bytes dt_size ++ u32bytes os_version ++
    List.replicate 16 0 ++ List.replicate 512 0 ++ List.replicate 32 0


/-! ### Concrete inputs and result extractors -/

/-- Valid magic, `page_size = 3` (not a power of two), all section sizes 0. -/
def imgA : List Nat := mkHeaderBytes androidMagic 0 0 0 0 0 0 0 3 0 0

/-- Valid magic, `kernel_size = 5000` but only 608 bytes of stream. -/
def imgB : List Nat := mkHeaderBytes androidMagic 5000 0 0 0 0 0 0 16 0 0

/-- Valid magic, `kernel_size = 3`; the kernel bytes that end up being read are
the `ramdisk_size` field `1f 8b 08 00`, i.e. a gzip-led section. -/
def imgC : List Nat := mkHeaderBytes androidMagic 3 0 0x00088b1f 0 0 0 0 16 0 0

/-- Valid magic, `kernel_size = 8`; the kernel bytes read are the
`ramdisk_size`/`ramdisk_addr` fields `01 00 00 00 d0 0d fe ed`, i.e. a kernel
with the device-tree magic at offset 4. -/
def imgE : List Nat := mkHeaderBytes androidMagic 8 0 1 0xedfe0dd0 0 0 0 16 0 0

/-- Valid magic with a `name` field that starts with a NUL byte before the
letter `A`. -/
def imgF : List Nat :=
  androidMagic ++ u32bytes 0 ++ u32bytes 0 ++ u32bytes 0 ++ u32bytes 0 ++
    u32bytes 0 ++ u32bytes 0 ++ u32bytes 0 ++ u32bytes 16 ++
    u32bytes 0 ++ u32bytes 0 ++
    ([0, 65] ++ List.replicate 14 0) ++ List.replicate 512 0 ++ List.replicate 32 0

/-- A 608-byte stream whose first 8 bytes are `'BADMAGIC'`. -/
def imgG : List Nat := mkHeaderBytes [66, 65, 68, 77, 65, 71, 73, 67] 0 0 0 0 0 0 0 2048 0 0

/-- Valid magic, `page_size = 0`. -/
def imgH : List Nat := mkHeaderBytes androidMagic 0 0 0 0 0 0 0 0 0 0

/-- True exactly when the decoder returned a normal result. -/
def isOkResult : Option (Except FormatError (ParseResult × BStream)) → Bool
  | some (.ok _) => true
  | _ => false

/-- The length of the returned kernel buffer of a normal result. -/
def okKernelLength : Option (Except FormatError (ParseResult × BStream)) → Option Nat
  | some (.ok (r, _)) => some r.kernel.length
  | _ => none

/-- The closed flag of the final stream state of a normal result. -/
def closedOf : Option (Except FormatError (ParseResult × BStream)) → Option Bool
  | some (.ok (_, s)) => some s.closed
  | _ => none

/-- The result/stream pair of a normal decoder return (dummy otherwise). -/
def outOf : Option (Except FormatError (ParseResult × BStream)) → ParseResult × BStream
  | some (.ok p) => p
  | _ => (initResult (unpackBootHeader []) 0, mkStream [])

/-- Decoded `imgA`. -/
def outA : ParseResult × BStream := outOf (parse_bootimg_for_mkvendor 1 (mkStream imgA))

/-- Decoded `imgC`. -/
def outC : ParseResult × BStream := outOf (parse_bootimg_for_mkvendor 1 (mkStream imgC))

/-- Decoded `imgE`. -/
def outE : ParseResult × BStream := outOf (parse_bootimg_for_mkvendor 1 (mkStream imgE))

/-- Decoded `imgF`. -/
def outF : ParseResult × BStream := outOf (parse_bootimg_for_mkvendor 2 (mkStream imgF))

/-- Modelled from the spec for claim C7: the specification words the string
normalisation as stripping the *trailing* NUL bytes of the `name`/`cmdline`
fields, whereas the code uses Python `str.strip` (both ends). -/
def specStripTrailingNul (s : List Nat) : List Nat :=
  (s.reverse.dropWhile (fun b => b = 0)).reverse

/-! ### Characterization lemmas for the decode stages -/

theorem headerStage_ok {s0 s1 : BStream} {hdr : BootHeader}
    (h : headerStage s0 = .ok (hdr, s1)) :
    608 ≤ s0.data.length ∧
    hdr = unpackBootHeader (s0.data.take 608) ∧
    hdr.magic = androidMagic ∧
    s1 = ⟨s0.data, hdr.page_size, s0.closed⟩ := by
  unfold headerStage bseek0 bread bseekRel at h
  simp only [List.drop_zero] at h
  split at h
  · next hlen =>
    have hle : 608 ≤ s0.data.length := by
      have := List.length_take 608 s0.data
      omega
    split at h
    · next heq => simp at h
    · next s2 heq =>
      split at h
      · next hmagic =>
        injection h with h'
        injection h' with h1 h2
        subst h1
        refine ⟨hle, rfl, hmagic, ?_⟩
        subst h2
        split at heq
        · simp at heq
        · next hge =>
          injection heq with heq
          subst heq
          simp only [hlen]
          congr 1
          omega
      · simp at h
  · simp at h

theorem probeLoop_ok {ps fuel : Nat} {s s2 : BStream} {size : Nat}
    (h : probeLoop ps fuel s = some (.ok (s2, size))) :
    s2.data = s.data ∧ s2.closed = s.closed ∧ size = s2.pos := by
  induction fuel generalizing s with
  | zero => simp [probeLoop] at h
  | succ n ih =>
    unfold probeLoop at h
    dsimp only at h
    split at h
    · simpa [bread] using ih h
    · cases hseek : bseekRel (-(ps : Int)) (bread ps s).2 with
      | none => rw [hseek] at h; simp at h
      | some s3 =>
        rw [hseek] at h
        simp only [Option.some.injEq, Except.ok.injEq, Prod.mk.injEq] at h
        obtain ⟨h1, h2⟩ := h
        subst h1
        unfold bseekRel at hseek
        split at hseek
        · simp at hseek
        · injection hseek with hseek
          subst hseek
          refine ⟨?_, ?_, h2.symm⟩ <;> simp [bread]

theorem kernelStep_ok {hdr : BootHeader} {size : Nat} {r r' : ParseResult}
    {s s' : BStream} (h : kernelStep hdr size r s = .ok (r', s')) :
    (∃ buf, buf = (s.data.drop s.pos).take hdr.kernel_size ∧
      r' = { r with
        kernel := (kernelSplit buf).1
        kerneldt := (kernelSplit buf).2
        image_format := r.image_format ++ [("kernel", gzname (buf.take 3))] }) ∧
    s'.data = s.data ∧ s'.closed = s.closed := by
  unfold kernelStep bread bseekRel at h
  dsimp only at h
  split at h
  · simp at h
  · simp only [Except.ok.injEq, Prod.mk.injEq] at h
    obtain ⟨h1, h2⟩ := h
    next s2 heq =>
    constructor
    · exact ⟨_, rfl, h1.symm⟩
    · split at heq
      · simp at heq
      · injection heq with heq
        subst heq h2
        exact ⟨rfl, rfl⟩

theorem ramdiskStep_ok {hdr : BootHeader} {size : Nat} {r r' : ParseResult}
    {s s' : BStream} (h : ramdiskStep hdr size r s = .ok (r', s')) :
    (∃ buf, buf = (s.data.drop s.pos).take hdr.ramdisk_size ∧
      r' = { r with
        ramdisk := buf
        image_format := r.image_format ++ [("ramdisk", gzname (buf.take 3))] }) ∧
    s'.data = s.data ∧ s'.closed = s.closed := by
  unfold ramdiskStep bread bseekRel at h
  dsimp only at h
  split at h
  · simp at h
  · simp only [Except.ok.injEq, Prod.mk.injEq] at h
    obtain ⟨h1, h2⟩ := h
    next s2 heq =>
    constructor
    · exact ⟨_, rfl, h1.symm⟩
    · split at heq
      · simp at heq
      · injection heq with heq
        subst heq h2
        exact ⟨rfl, rfl⟩

theorem secondStep_ok {hdr : BootHeader} {size : Nat} {r r' : ParseResult}
    {s s' : BStream} (h : secondStep hdr size r s = .ok (r', s')) :
    ((hdr.second_size ≠ 0 ∧
      ∃ buf, buf = (s.data.drop s.pos).take hdr.second_size ∧
        r' = { r with
          second := buf
          image_format := r.image_format ++ [("second", gzname (buf.take 3))] }) ∨
     (hdr.second_size = 0 ∧ r' = r ∧ s' = s)) ∧
    s'.data = s.data ∧ s'.closed = s.closed := by
  unfold secondStep bread bseekRel at h
  dsimp only at h
  split at h
  · next hne =>
    split at h
    · simp at h
    · simp only [Except.ok.injEq, Prod.mk.injEq] at h
      obtain ⟨h1, h2⟩ := h
      next s2 heq =>
      constructor
      · exact Or.inl ⟨hne, _, rfl, h1.symm⟩
      · split at heq
        · simp at heq
        · injection heq with heq
          subst heq h2
          exact ⟨rfl, rfl⟩
  · next hz =>
    simp only [Except.ok.injEq, Prod.mk.injEq] at h
    obtain ⟨h1, h2⟩ := h
    subst h2
    exact ⟨Or.inr ⟨by omega, h1.symm, rfl⟩, rfl, rfl⟩

theorem dtStep_ok {hdr : BootHeader} {size : Nat} {r r' : ParseResult}
    {s s' : BStream} (h : dtStep hdr size r s = .ok (r', s')) :
    ((hdr.dt_size ≠ 0 ∧
      ∃ buf, buf = (s.data.drop s.pos).take hdr.dt_size ∧
        r' = { r with dtimg := buf }) ∨
     (hdr.dt_size = 0 ∧ r' = r ∧ s' = s)) ∧
    s'.data = s.data ∧ s'.closed = s.closed := by
  unfold dtStep bread bseekRel at h
  dsimp only at h
  split at h
  · next hne =>
    split at h
    · simp at h
    · simp only [Except.ok.injEq, Prod.mk.injEq] at h
      obtain ⟨h1, h2⟩ := h
      next s2 heq =>
      constructor
      · exact Or.inl ⟨hne, _, rfl, h1.symm⟩
      · split at heq
        · simp at heq
        · injection heq with heq
          subst heq h2
          exact ⟨rfl, rfl⟩
  · next hz =>
    simp only [Except.ok.injEq, Prod.mk.injEq] at h
    obtain ⟨h1, h2⟩ := h
    subst h2
    exact ⟨Or.inr ⟨by omega, h1.symm, rfl⟩, rfl, rfl⟩

theorem unknownStep_eq (r : ParseResult) (s : BStream) :
    unknownStep r s =
      ((if s.data.drop s.pos ≠ [] then { r with unknown := s.data.drop s.pos } else r),
       ⟨s.data, s.pos + (s.data.drop s.pos).length, true⟩) := by
  unfold unknownStep breadAll bclose
  rfl

theorem sectionsStage_ok {hdr : BootHeader} {size : Nat} {s : BStream}
    {r : ParseResult} {s' : BStream}
    (h : sectionsStage hdr size s = .ok (r, s')) :
    ∃ r1 s1 r2 s2 r3 s3 r4 s4,
      kernelStep hdr size (initResult hdr size) s = .ok (r1, s1) ∧
      ramdiskStep hdr size r1 s1 = .ok (r2, s2) ∧
      secondStep hdr size r2 s2 = .ok (r3, s3) ∧
      dtStep hdr size r3 s3 = .ok (r4, s4) ∧
      (r, s') = unknownStep r4 s4 := by
  unfold sectionsStage at h
  split at h
  · simp at h
  · next r1 s1 h1 =>
    split at h
    · simp at h
    · next r2 s2 h2 =>
      split at h
      · simp at h
      · next r3 s3 h3 =>
        split at h
        · simp at h
        · next r4 s4 h4 =>
          injection h with h
          exact ⟨r1, s1, r2, s2, r3, s3, r4, s4, h1, h2, h3, h4, h.symm⟩

theorem parse_ok {fuel : Nat} {s0 : BStream} {r : ParseResult} {s' : BStream}
    (h : parse_bootimg_for_mkvendor fuel s0 = some (.ok (r, s'))) :
    ∃ hdr s1 s2 size,
      headerStage s0 = .ok (hdr, s1) ∧
      probeLoop hdr.page_size fuel s1 = some (.ok (s2, size)) ∧
      sectionsStage hdr size s2 = .ok (r, s') := by
  unfold parse_bootimg_for_mkvendor at h
  split at h
  · simp at h
  · next hdr s1 hA =>
    split at h
    · simp at h
    · simp at h
    · next s2 size hB =>
      injection h with h
      exact ⟨hdr, s1, s2, size, hA, hB, h⟩

/-! ### The padding arithmetic -/

theorem pyAnd_eq_land (x y : Int) : pyAnd x y = Int.land x y := by
  have hld : ∀ a b : Nat, a ^^^ (a &&& b) = Nat.ldiff a b := by
    intro a b
    apply Nat.eq_of_testBit_eq
    intro i
    rw [Nat.testBit_xor, Nat.testBit_and, Nat.testBit_ldiff]
    cases a.testBit i <;> cases b.testBit i <;> rfl
  cases x with
  | ofNat a =>
    cases y with
    | ofNat b => rfl
    | negSucc b =>
      show Int.ofNat (a ^^^ (a &&& b)) = Int.ofNat (Nat.ldiff a b)
      rw [hld]
  | negSucc a =>
    cases y with
    | ofNat b =>
      show Int.ofNat (b ^^^ (b &&& a)) = Int.ofNat (Nat.ldiff b a)
      rw [hld]
    | negSucc b => rfl

theorem pyPadding_eq_land (size x : Nat) :
    pyPadding size x = Int.land (~~~(x : Int) + 1) ((size : Int) - 1) := by
  unfold pyPadding
  rw [pyAnd_eq_land]

theorem ldiff_two_pow_sub_one (k m : Nat) :
    Nat.ldiff (2 ^ k - 1) m = 2 ^ k - 1 - m % 2 ^ k := by
  have hlt : m % 2 ^ k < 2 ^ k := Nat.mod_lt _ (Nat.two_pow_pos k)
  have h1 : 2 ^ k - 1 - m % 2 ^ k = 2 ^ k - (m % 2 ^ k + 1) := by omega
  rw [h1]
  apply Nat.eq_of_testBit_eq
  intro i
  rw [Nat.testBit_ldiff, Nat.testBit_two_pow_sub_one,
    Nat.testBit_two_pow_sub_succ hlt, Nat.testBit_mod_two_pow]
  cases h : decide (i < k) <;> simp

/-! ### Forward evaluation lemmas -/

theorem headerStage_eq_of_magic {s0 : BStream} (hlen : 608 ≤ s0.data.length)
    (hmagic : s0.data.take 8 = androidMagic) :
    headerStage s0 = .ok (unpackBootHeader (s0.data.take 608),
      ⟨s0.data, (unpackBootHeader (s0.data.take 608)).page_size, s0.closed⟩) := by
  have h1 : (s0.data.take 608).length = 608 := by
    rw [List.length_take]
    omega
  have hmagic' : (unpackBootHeader (s0.data.take 608)).magic = androidMagic := by
    rw [unpackBootHeader]
    simpa [List.take_take] using hmagic
  unfold headerStage bseek0 bread bseekRel
  dsimp only
  rw [List.drop_zero, if_pos h1, h1]
  have hc : ¬ (((0 + 608 : Nat) : Int) +
      (((unpackBootHeader (s0.data.take 608)).page_size : Int) - 608) < 0) := by
    push_cast
    omega
  rw [if_neg hc]
  have ht : (((0 + 608 : Nat) : Int) +
      (((unpackBootHeader (s0.data.take 608)).page_size : Int) - 608)).toNat =
      (unpackBootHeader (s0.data.take 608)).page_size := by
    push_cast
    omega
  rw [ht]
  dsimp only
  rw [if_pos hmagic']

theorem headerStage_eq_of_bad {s0 : BStream} (hlen : 608 ≤ s0.data.length)
    (hmagic : s0.data.take 8 ≠ androidMagic) :
    headerStage s0 = .error .badMagic := by
  have h1 : (s0.data.take 608).length = 608 := by
    rw [List.length_take]
    omega
  have hmagic' : ¬ (unpackBootHeader (s0.data.take 608)).magic = androidMagic := by
    rw [unpackBootHeader]
    simpa [List.take_take] using hmagic
  unfold headerStage bseek0 bread bseekRel
  dsimp only
  rw [List.drop_zero, if_pos h1, h1]
  have hc : ¬ (((0 + 608 : Nat) : Int) +
      (((unpackBootHeader (s0.data.take 608)).page_size : Int) - 608) < 0) := by
    push_cast
    omega
  rw [if_neg hc]
  dsimp only
  rw [if_neg hmagic']

theorem probeLoop_zero_page (fuel : Nat) (s : BStream) :
    probeLoop 0 fuel s = none := by
  induction fuel generalizing s with
  | zero => rfl
  | succ n ih =>
    unfold probeLoop
    dsimp only
    rw [if_pos (by simp [bread])]
    exact ih _

/-! ### Result-shape lemmas -/

theorem kernelSplit_append (b : List Nat) :
    (kernelSplit b).1 ++ (kernelSplit b).2 = b := by
  unfold kernelSplit
  cases h : findSub b dtbMagic with
  | none => exact List.append_nil b
  | some p =>
    dsimp only
    split
    · exact List.take_append_drop p b
    · exact List.append_nil b

theorem findSubFrom_le {needle l : List Nat} :
    ∀ {i p : Nat}, findSubFrom needle l i = some p → p ≤ i + l.length := by
  induction l with
  | nil =>
    intro i p h
    unfold findSubFrom at h
    split at h
    · injection h with h
      omega
    · exact absurd h (by simp)
  | cons b rest ih =>
    intro i p h
    unfold findSubFrom at h
    split at h
    · injection h with h
      simp
      omega
    · have := ih h
      simp at this ⊢
      omega

theorem findSub_le {l needle : List Nat} {p : Nat}
    (h : findSub l needle = some p) : p ≤ l.length := by
  have := findSubFrom_le h
  omega

theorem sections_fields {hdr : BootHeader} {size : Nat} {s : BStream}
    {r : ParseResult} {s' : BStream}
    (h : sectionsStage hdr size s = .ok (r, s')) :
    r.metadata = mkMetadata hdr size ∧
    s'.data = s.data ∧ s'.closed = true ∧
    ∃ kbuf rbuf,
      r.kernel = (kernelSplit kbuf).1 ∧
      r.kerneldt = (kernelSplit kbuf).2 ∧
      r.ramdisk = rbuf ∧
      ((hdr.second_size = 0 ∧ r.second = [] ∧
        r.image_format =
          [("kernel", gzname (kbuf.take 3)), ("ramdisk", gzname (rbuf.take 3))]) ∨
       (hdr.second_size ≠ 0 ∧
        r.image_format =
          [("kernel", gzname (kbuf.take 3)), ("ramdisk", gzname (rbuf.take 3)),
           ("second", gzname (r.second.take 3))])) := by
  obtain ⟨r1, s1, r2, s2, r3, s3, r4, s4, h1, h2, h3, h4, h5⟩ := sectionsStage_ok h
  obtain ⟨⟨kbuf, hkbuf, hr1⟩, hs1d, hs1c⟩ := kernelStep_ok h1
  obtain ⟨⟨rbuf, hrbuf, hr2⟩, hs2d, hs2c⟩ := ramdiskStep_ok h2
  obtain ⟨hsec, hs3d, hs3c⟩ := secondStep_ok h3
  obtain ⟨hdt, hs4d, hs4c⟩ := dtStep_ok h4
  rw [unknownStep_eq] at h5
  have hr : r = (if s4.data.drop s4.pos ≠ [] then { r4 with unknown := s4.data.drop s4.pos } else r4) :=
    congrArg Prod.fst h5
  have hs' : s' = ⟨s4.data, s4.pos + (s4.data.drop s4.pos).length, true⟩ :=
    congrArg Prod.snd h5
  have hfields : r.metadata = r4.metadata ∧ r.kernel = r4.kernel ∧
      r.kerneldt = r4.kerneldt ∧ r.ramdisk = r4.ramdisk ∧
      r.second = r4.second ∧ r.image_format = r4.image_format := by
    rw [hr]
    split <;> exact ⟨rfl, rfl, rfl, rfl, rfl, rfl⟩
  obtain ⟨hm, hk, hkt, hrd, hsd, hif⟩ := hfields
  have hr4 : r4.metadata = r3.metadata ∧ r4.kernel = r3.kernel ∧
      r4.kerneldt = r3.kerneldt ∧ r4.ramdisk = r3.ramdisk ∧
      r4.second = r3.second ∧ r4.image_format = r3.image_format := by
    rcases hdt with ⟨_, dbuf, _, hr4⟩ | ⟨_, hr4, _⟩ <;>
      (subst hr4; exact ⟨rfl, rfl, rfl, rfl, rfl, rfl⟩)
  obtain ⟨hm4, hk4, hkt4, hrd4, hsd4, hif4⟩ := hr4
  subst hr2
  subst hr1
  refine ⟨?_, ?_, ?_, kbuf, rbuf, ?_, ?_, ?_, ?_⟩
  · -- metadata
    rcases hsec with ⟨_, _, _, hr3⟩ | ⟨_, hr3, _⟩ <;>
      (subst hr3; simp [hm, hm4, initResult])
  · rw [hs']
    dsimp only
    rw [hs4d, hs3d, hs2d, hs1d]
  · rw [hs']
  · rcases hsec with ⟨_, _, _, hr3⟩ | ⟨_, hr3, _⟩ <;> (subst hr3; simp [hk, hk4])
  · rcases hsec with ⟨_, _, _, hr3⟩ | ⟨_, hr3, _⟩ <;> (subst hr3; simp [hkt, hkt4])
  · rcases hsec with ⟨_, _, _, hr3⟩ | ⟨_, hr3, _⟩ <;> (subst hr3; simp [hrd, hrd4])
  · rcases hsec with ⟨hne, sbuf, hsbuf, hr3⟩ | ⟨hz, hr3, _⟩
    · right
      subst hr3
      refine ⟨hne, ?_⟩
      rw [hif, hif4, hsd, hsd4]
      simp [initResult]
    · left
      subst hr3
      refine ⟨hz, ?_, ?_⟩
      · rw [hsd, hsd4]
        simp [initResult]
      · rw [hif, hif4]
        simp [initResult]

/-! ### The claims -/

/-- C1: the claim states that a header whose `page_size` is zero or not a
power of two makes decoding fail with a typed `InvalidPageSize` error before
any result is produced.  The code performs no such validation: on `imgA`, a
valid-magic image whose `page_size` field is 3 (neither zero nor a power of
two), the decoder runs to completion and returns an ordinary result, raising
no error of any kind. -/
theorem C1_no_page_size_validation :
    (unpackBootHeader (imgA.take 608)).magic = androidMagic ∧
    (unpackBootHeader (imgA.take 608)).page_size = 3 ∧
    isOkResult (parse_bootimg_for_mkvendor 1 (mkStream imgA)) = true := by
  refine ⟨by decide, by decide, by decide⟩

/-- C2: the claim states that a section read reaching end-of-stream before the
declared number of bytes yields a typed `Truncated` failure and never a
silently short buffer.  The code has no such check: on the 608-byte stream
`imgB`, whose header declares `kernel_size = 5000`, the decode returns a
normal result whose kernel buffer holds only the 576 bytes that were
available. -/
theorem C2_silent_short_section_read :
    (unpackBootHeader (imgB.take 608)).kernel_size = 5000 ∧
    imgB.length = 608 ∧
    okKernelLength (parse_bootimg_for_mkvendor 2 (mkStream imgB)) = some 576 ∧
    (576 : Nat) < 5000 := by
  refine ⟨by decide, by decide, by decide, by decide⟩

/-- C3 counterexample: the compression tag recorded for a gzip-led kernel
section is the four-character string `".gz"` (a filename suffix), not the
string `"gz"` stated by the claim: decoding `imgC`, whose kernel section
starts with `1f 8b 08`, maps `"kernel"` to `".gz"`, and `".gz" ≠ "gz"`. -/
theorem C3_gz_tag_counterexample :
    outC.1.image_format.lookup "kernel" = some ".gz" ∧ (".gz" : String) ≠ "gz" := by
  refine ⟨by decide, by decide⟩

/-- C3 (amended): on every successful decode, `image_format` maps `"kernel"`
and `"ramdisk"` to `".gz"` exactly when the first three bytes of the section
buffer (for the kernel: before the device-tree split) are `1f 8b 08`, and to
`""` otherwise; `"second"` is tagged the same way when a second-stage section
was read, and is absent from the mapping (with `second` empty) otherwise. -/
theorem C3_image_format_amended (fuel : Nat) (s0 : BStream)
    (r : ParseResult) (s' : BStream)
    (h : parse_bootimg_for_mkvendor fuel s0 = some (.ok (r, s'))) :
    r.image_format.lookup "kernel" =
      some (if (r.kernel ++ r.kerneldt).take 3 = gzipMagic then ".gz" else "") ∧
    r.image_format.lookup "ramdisk" =
      some (if r.ramdisk.take 3 = gzipMagic then ".gz" else "") ∧
    (r.image_format.lookup "second" =
       some (if r.second.take 3 = gzipMagic then ".gz" else "") ∨
     (r.image_format.lookup "second" = none ∧ r.second = [])) := by
  obtain ⟨hdr, s1, s2, size, hA, hB, hC⟩ := parse_ok h
  obtain ⟨_, _, _, kbuf, rbuf, hk, hkt, hrd, himg⟩ := sections_fields hC
  have hsec : r.kernel ++ r.kerneldt = kbuf := by
    rw [hk, hkt]
    exact kernelSplit_append kbuf
  rcases himg with ⟨hz, hsecond, hif⟩ | ⟨hne, hif⟩
  · refine ⟨?_, ?_, Or.inr ⟨?_, hsecond⟩⟩
    · rw [hif, hsec]
      simp [List.lookup, gzname]
    · rw [hif, hrd]
      simp [List.lookup, gzname]
    · rw [hif]
      simp [List.lookup]
  · refine ⟨?_, ?_, Or.inl ?_⟩
    · rw [hif, hsec]
      simp [List.lookup, gzname]
    · rw [hif, hrd]
      simp [List.lookup, gzname]
    · rw [hif]
      simp [List.lookup, gzname]

/-- C3 witness: the amended theorem applied to the concrete image `imgC`
(gzip-led kernel, zero-led ramdisk). -/
theorem C3_image_format_amended_witness :
    outC.1.image_format.lookup "kernel" = some ".gz" ∧
    outC.1.image_format.lookup "ramdisk" = some "" := by
  have main := C3_image_format_amended 1 (mkStream imgC) outC.1 outC.2 rfl
  exact ⟨main.1.trans (by decide), main.2.1.trans (by decide)⟩

/-- C4 counterexample: the decoder closes the stream before returning
(line 161, `bootimg.close()`): after the successful decode of `imgA` the final
stream state is closed, contradicting the claim that the caller still owns an
open stream after decode returns. -/
theorem C4_closes_stream_counterexample :
    closedOf (parse_bootimg_for_mkvendor 1 (mkStream imgA)) = some true ∧
    closedOf (parse_bootimg_for_mkvendor 1 (mkStream imgA)) ≠ some false := by
  refine ⟨by decide, by decide⟩

/-- C4 (amended): the decoder only reads and seeks the source stream — a
successful decode leaves the stream contents byte-for-byte unchanged — but it
does close the stream before returning, so the caller is left with a closed
stream. -/
theorem C4_reads_only_but_closes (fuel : Nat) (s0 : BStream)
    (r : ParseResult) (s' : BStream)
    (h : parse_bootimg_for_mkvendor fuel s0 = some (.ok (r, s'))) :
    s'.data = s0.data ∧ s'.closed = true := by
  obtain ⟨hdr, s1, s2, size, hA, hB, hC⟩ := parse_ok h
  obtain ⟨_, _, _, hs1⟩ := headerStage_ok hA
  obtain ⟨hd2, hc2, _⟩ := probeLoop_ok hB
  obtain ⟨_, hsd, hscl, _⟩ := sections_fields hC
  refine ⟨?_, hscl⟩
  rw [hsd, hd2, hs1]

/-- C4 witness: the amended theorem applied to the concrete image `imgA`. -/
theorem C4_reads_only_but_closes_witness :
    outA.2.data = imgA ∧ outA.2.closed = true :=
  C4_reads_only_but_closes 1 (mkStream imgA) outA.1 outA.2 rfl

/-- C5: on every successful decode, if the big-endian device-tree magic
`d0 0d fe ed` first occurs in the kernel section buffer at a positive offset
`p`, then the returned `kernel` is the first `p` bytes (so has length `p`) and
`kerneldt` is the rest of the section; if the magic is absent or first occurs
at offset 0, `kerneldt` is empty (and `kernel` is the whole section). -/
theorem C5_kernel_dt_split (fuel : Nat) (s0 : BStream)
    (r : ParseResult) (s' : BStream)
    (h : parse_bootimg_for_mkvendor fuel s0 = some (.ok (r, s'))) :
    (∀ p : Nat, findSub (r.kernel ++ r.kerneldt) dtbMagic = some p → 0 < p →
      r.kernel = (r.kernel ++ r.kerneldt).take p ∧
      r.kernel.length = p ∧
      r.kerneldt = (r.kernel ++ r.kerneldt).drop p) ∧
    ((findSub (r.kernel ++ r.kerneldt) dtbMagic = none ∨
      findSub (r.kernel ++ r.kerneldt) dtbMagic = some 0) → r.kerneldt = []) := by
  obtain ⟨hdr, s1, s2, size, hA, hB, hC⟩ := parse_ok h
  obtain ⟨_, _, _, kbuf, rbuf, hk, hkt, hrd, himg⟩ := sections_fields hC
  have hsec : r.kernel ++ r.kerneldt = kbuf := by
    rw [hk, hkt]
    exact kernelSplit_append kbuf
  rw [hsec]
  constructor
  · intro p hp hpos
    have hks : kernelSplit kbuf = (kbuf.take p, kbuf.drop p) := by
      unfold kernelSplit
      rw [hp]
      dsimp only
      rw [if_pos hpos]
    have hlen : p ≤ kbuf.length := findSub_le hp
    refine ⟨by rw [hk, hks], ?_, by rw [hkt, hks]⟩
    rw [hk, hks]
    simp only [List.length_take]
    omega
  · intro hcase
    have hks : kernelSplit kbuf = (kbuf, []) := by
      unfold kernelSplit
      rcases hcase with hnone | hzero
      · rw [hnone]
      · rw [hzero]
        simp
    rw [hkt, hks]

/-- C5 witness: the theorem applied to `imgE`, whose 8-byte kernel section
carries the device-tree magic at offset 4. -/
theorem C5_kernel_dt_split_witness :
    outE.1.kernel = [1, 0, 0, 0] ∧ outE.1.kerneldt = [0xd0, 0x0d, 0xfe, 0xed] := by
  have main := C5_kernel_dt_split 1 (mkStream imgE) outE.1 outE.2 rfl
  have h4 := main.1 4 (by decide) (by decide)
  exact ⟨h4.1.trans (by decide), h4.2.2.trans (by decide)⟩

/-- C6: for every non-negative integer `n` and every power-of-two `size`, the
padding function `(~n + 1) & (size - 1)` of the decoder satisfies
`(n + padding n) mod size = 0`, i.e. it is exactly the rounding-up distance to
the next multiple of `size`. -/
theorem C6_padding_roundup (n k : Nat) :
    ((n : Int) + pyPadding (2 ^ k) n) % ((2 : Int) ^ k) = 0 := by
  have hone : 1 ≤ 2 ^ k := Nat.one_le_two_pow
  have hcast : (((2 ^ k : Nat) : Int)) - 1 = ((2 ^ k - 1 : Nat) : Int) := by
    push_cast [hone]
    ring
  rw [pyPadding_eq_land, hcast]
  cases n with
  | zero =>
    have h0 : (~~~((0 : Nat) : Int) + 1) = 0 := by decide
    rw [h0]
    have hz : Int.land 0 ((2 ^ k - 1 : Nat) : Int) = 0 := by
      show Int.ofNat (0 &&& (2 ^ k - 1)) = 0
      simp [Nat.zero_and]
    rw [hz]
    simp
  | succ m =>
    have hnot : ~~~((m + 1 : Nat) : Int) + 1 = Int.negSucc m := by
      show Int.negSucc (m + 1) + 1 = Int.negSucc m
      simp [Int.negSucc_eq]
    rw [hnot]
    have hland : Int.land (Int.negSucc m) ((2 ^ k - 1 : Nat) : Int) =
        ((Nat.ldiff (2 ^ k - 1) m : Nat) : Int) := rfl
    rw [hland, ldiff_two_pow_sub_one]
    have hdm := Nat.div_add_mod m (2 ^ k)
    have hr : m % 2 ^ k < 2 ^ k := Nat.mod_lt _ (Nat.two_pow_pos k)
    have hsum : (m + 1) + (2 ^ k - 1 - m % 2 ^ k) = 2 ^ k * (m / 2 ^ k) + 2 ^ k := by
      omega
    have hdvd : (2 ^ k : Nat) ∣ (m + 1) + (2 ^ k - 1 - m % 2 ^ k) := by
      rw [hsum]
      exact dvd_add (Dvd.intro _ rfl) dvd_rfl
    have hcst : ((m + 1 : Nat) : Int) + ((2 ^ k - 1 - m % 2 ^ k : Nat) : Int) =
        (((m + 1) + (2 ^ k - 1 - m % 2 ^ k) : Nat) : Int) := by
      push_cast
      ring
    rw [hcst]
    apply Int.emod_eq_zero_of_dvd
    have hp : ((2 : Int) ^ k) = ((2 ^ k : Nat) : Int) := by push_cast; ring
    rw [hp]
    exact Int.natCast_dvd_natCast.mpr hdvd

/-- C7 counterexample: the code normalises `name` with Python `str.strip`,
which removes NUL bytes from *both* ends, while the claim says only trailing
NULs are stripped: on `imgF`, whose name field is `00 41 00 ... 00`, the
decoder stores `"A"` (`[65]`), but the trailing-only strip of the claim gives
`"\x00A"` (`[0, 65]`). -/
theorem C7_strip_counterexample :
    outF.1.metadata.lookup "name" = some (.str [65]) ∧
    specStripTrailingNul (unpackBootHeader (imgF.take 608)).name = [0, 65] ∧
    ([65] : List Nat) ≠ [0, 65] := by
  refine ⟨by decide, by decide, by decide⟩

/-- C7 (amended): on every successful decode the metadata mapping holds
exactly the keys kernel_addr, ramdisk_addr, second_addr, tags_addr, page_size,
name, cmdline, padding_size, os_version, in that order; the four addresses,
page_size and the raw os_version equal the header fields; name and cmdline are
the Latin-1 decodes of the header fields with NUL bytes stripped from both
ends (non-ASCII bytes are kept); and padding_size is the size probed by the
zero-page loop of Step 3. -/
theorem C7_metadata_amended (fuel : Nat) (s0 : BStream)
    (r : ParseResult) (s' : BStream)
    (h : parse_bootimg_for_mkvendor fuel s0 = some (.ok (r, s'))) :
    r.metadata.map Prod.fst =
      ["kernel_addr", "ramdisk_addr", "second_addr", "tags_addr", "page_size",
       "name", "cmdline", "padding_size", "os_version"] ∧
    r.metadata.lookup "kernel_addr" =
      some (.num (unpackBootHeader (s0.data.take 608)).kernel_addr) ∧
    r.metadata.lookup "ramdisk_addr" =
      some (.num (unpackBootHeader (s0.data.take 608)).ramdisk_addr) ∧
    r.metadata.lookup "second_addr" =
      some (.num (unpackBootHeader (s0.data.take 608)).second_addr) ∧
    r.metadata.lookup "tags_addr" =
      some (.num (unpackBootHeader (s0.data.take 608)).tags_addr) ∧
    r.metadata.lookup "page_size" =
      some (.num (unpackBootHeader (s0.data.take 608)).page_size) ∧
    r.metadata.lookup "os_version" =
      some (.num (unpackBootHeader (s0.data.take 608)).os_version) ∧
    r.metadata.lookup "name" =
      some (.str (stripNul (unpackBootHeader (s0.data.take 608)).name)) ∧
    r.metadata.lookup "cmdline" =
      some (.str (stripNul (unpackBootHeader (s0.data.take 608)).cmdline)) ∧
    ∃ size s2,
      probeLoop (unpackBootHeader (s0.data.take 608)).page_size fuel
        ⟨s0.data, (unpackBootHeader (s0.data.take 608)).page_size, s0.closed⟩ =
        some (.ok (s2, size)) ∧
      r.metadata.lookup "padding_size" = some (.num size) := by
  obtain ⟨hdr, s1, s2, size, hA, hB, hC⟩ := parse_ok h
  obtain ⟨_, hhdr, _, hs1⟩ := headerStage_ok hA
  subst hhdr
  rw [hs1] at hB
  obtain ⟨hm, _, _, _⟩ := sections_fields hC
  rw [hm]
  refine ⟨by simp [mkMetadata], ?_, ?_, ?_, ?_, ?_, ?_, ?_, ?_, size, s2, hB, ?_⟩ <;>
    simp [mkMetadata, List.lookup]

/-- C7 witness: the amended theorem applied to `imgF`, checking the exact key
list of the metadata mapping. -/
theorem C7_metadata_amended_witness :
    outF.1.metadata.map Prod.fst =
      ["kernel_addr", "ramdisk_addr", "second_addr", "tags_addr", "page_size",
       "name", "cmdline", "padding_size", "os_version"] :=
  (C7_metadata_amended 2 (mkStream imgF) outF.1 outF.2 rfl).1

/-- C8: for every stream of at least 608 bytes whose first 8 bytes are not
`'ANDROID!'`, the decode fails with the bad-magic error (the `assert`) before
any section data is read, and produces no result. -/
theorem C8_bad_magic_fails (fuel : Nat) (s0 : BStream)
    (hlen : 608 ≤ s0.data.length)
    (hmagic : s0.data.take 8 ≠ androidMagic) :
    parse_bootimg_for_mkvendor fuel s0 = some (.error .badMagic) := by
  unfold parse_bootimg_for_mkvendor
  rw [headerStage_eq_of_bad hlen hmagic]

/-- C8 witness: the theorem applied to the 608-byte stream `imgG` whose magic
is `'BADMAGIC'`. -/
theorem C8_bad_magic_fails_witness :
    parse_bootimg_for_mkvendor 5 (mkStream imgG) = some (.error .badMagic) :=
  C8_bad_magic_fails 5 (mkStream imgG) (by decide) (by decide)

/-- C9: when the header declares `second_size = 0`, the returned `second`
buffer is empty, and the second-stage step returns its result and stream
arguments entirely unchanged — it reads no bytes and skips no padding, so the
read positions of all later sections are unaffected. -/
theorem C9_second_size_zero (fuel : Nat) (s0 : BStream)
    (r : ParseResult) (s' : BStream)
    (hss : (unpackBootHeader (s0.data.take 608)).second_size = 0)
    (h : parse_bootimg_for_mkvendor fuel s0 = some (.ok (r, s'))) :
    r.second = [] ∧
    ∀ (sz : Nat) (r0 : ParseResult) (st : BStream),
      secondStep (unpackBootHeader (s0.data.take 608)) sz r0 st = .ok (r0, st) := by
  obtain ⟨hdr, s1, s2, size, hA, hB, hC⟩ := parse_ok h
  obtain ⟨_, hhdr, _, _⟩ := headerStage_ok hA
  subst hhdr
  obtain ⟨_, _, _, kbuf, rbuf, _, _, _, himg⟩ := sections_fields hC
  constructor
  · rcases himg with ⟨_, hsecond, _⟩ | ⟨hne, _⟩
    · exact hsecond
    · exact absurd hss hne
  · intro sz r0 st
    unfold secondStep
    rw [if_neg (by omega)]

/-- C9 witness: the theorem applied to `imgA`, whose header has
`second_size = 0`. -/
theorem C9_second_size_zero_witness :
    outA.1.second = [] :=
  (C9_second_size_zero 1 (mkStream imgA) outA.1 outA.2 (by decide) rfl).1

/-- C10: for every stream with valid `'ANDROID!'` magic whose `page_size`
field is zero, the zero-page probe loop never terminates — each iteration
reads 0 bytes, which equal the empty zero-fill pattern, and continues — so the
decoder neither returns a result nor raises an error, for any amount of
fuel. -/
theorem C10_zero_page_size_diverges (fuel : Nat) (s0 : BStream)
    (hlen : 608 ≤ s0.data.length)
    (hmagic : s0.data.take 8 = androidMagic)
    (hps : (unpackBootHeader (s0.data.take 608)).page_size = 0) :
    parse_bootimg_for_mkvendor fuel s0 = none := by
  unfold parse_bootimg_for_mkvendor
  rw [headerStage_eq_of_magic hlen hmagic]
  dsimp only
  rw [hps, probeLoop_zero_page]

/-- C10 witness: the theorem applied to `imgH` (valid magic, `page_size = 0`)
at fuel 7. -/
theorem C10_zero_page_size_diverges_witness :
    parse_bootimg_for_mkvendor 7 (mkStream imgH) = none :=
  C10_zero_page_size_diverges 7 (mkStream imgH) (by decide) (by decide) (by decide)

end Mkvendor
